import Mathlib

/-!
Verification of the DNA/RNA sequence utilities of the sublime_ELN_utils
plugin (src/eln_utils.py). The editor-glue parts (file handling, UI) are
out of scope; the embedding covers the sequence-transformation core:

- the Watson-Crick maps wc_maps, built by zipping two marker-decorated
  base strings (src/eln_utils.py lines 48-51);
- rseq, compl, rcompl, dna_filter (lines 47, 54-65);
- the per-selection pipeline of ElnSequenceTransformCommand.run
  (lines 537-566), with the final marker fixup via str.replace;
- the GC statistics of ElnSequenceStats.run (lines 577-599).

Strings are modelled by Lean String (a list of characters). Python
str.upper concatenates a per-character uppercase expansion which is
one-to-many for the special-cased characters of Unicode (the sharp s
expands to SS, the letter n preceded by a modifier letter expands to
two characters, and so on): the embedding models it as the flattening
of a per-character expansion that carries the special casings this
development evaluates on and is exact on the ASCII range. A Python
expression that raises (ZeroDivisionError, an unbound local variable)
is modelled by an Option-valued function returning none.
-/

namespace ElnUtils

/-- The names under which the source dictionary wc_maps has an entry
(its keys are the strings dna and rna). Indexing wc_maps with any other
name raises KeyError in the source; the claims only quantify over maps
that exist, so the embedding indexes by the existing keys. -/
inductive WcMapName where
  | dna
  | rna
deriving DecidableEq

/-- The zipped key/value character pairs of each wc_maps entry, exactly
as built by dict(zip(..., ...)) in the source (lines 48-51). The dash
and the apostrophe occur twice as keys; both occurrences carry the same
value. -/
def wc_maps : WcMapName → List (Char × Char)
  | WcMapName.dna => ( "5'-ATGC-3'" ).data.zip ( "3'-TACG-5'" ).data
  | WcMapName.rna => ( "5'-AUGC-3'" ).data.zip ( "3'-UACG-5'" ).data

/-- Python dict(pairs).get(c, c): a dict bound by later pairs overrides
earlier ones, so lookup scans the reversed pair list; the default is the
key itself, mirroring wc_maps[wc_map].get(b, b). -/
def dictGetD (pairs : List (Char × Char)) (c : Char) : Char :=
  (pairs.reverse.lookup c).getD c

/-- The per-character complement map .get(b, b) of compl. -/
def complChar (m : WcMapName) (c : Char) : Char :=
  dictGetD (wc_maps m) c

/-- The uppercase expansion of one character under Python str.upper.
Unicode uppercasing is one-to-many: the sharp s (code point 223)
uppercases to SS, and the small n preceded by a modifier apostrophe
(code point 329) uppercases to the modifier letter apostrophe (code
point 700) followed by N. The table lists the expanding characters this
development evaluates on; every other character uppercases to its
single Char.toUpper image, which is exact on the ASCII range the
sequence utilities target. -/
def pyUpperChar (c : Char) : List Char :=
  if c = Char.ofNat 223 then [ 'S', 'S' ]
  else if c = Char.ofNat 329 then [ Char.ofNat 700, 'N' ]
  else [ Char.toUpper c ]

/-- seq.upper(): the concatenation of each character's uppercase
expansion. -/
def str_upper (s : String) : String :=
  String.mk ((s.data.map pyUpperChar).flatten)

/-- rseq = lambda seq: "".join(reversed(seq)) (line 47). -/
def rseq (s : String) : String :=
  String.mk s.data.reverse

/-- compl(seq, wc_map): join of wc_maps[wc_map].get(b, b) over the
characters of seq.upper() (lines 54-56). There is no strict flag in the
source: a character with no entry passes through unchanged. -/
def compl (seq : String) (m : WcMapName) : String :=
  String.mk ((str_upper seq).data.map (complChar m))

/-- rcompl(seq, wc_map) = "".join(reversed(compl(seq, wc_map)))
(lines 59-61). -/
def rcompl (seq : String) (m : WcMapName) : String :=
  rseq (compl seq m)

/-- dna_filter(seq): keep only the characters of seq.upper() that lie in
ATCGU (lines 64-65). -/
def dna_filter (seq : String) : String :=
  String.mk ((str_upper seq).data.filter (fun b => ([ 'A', 'T', 'C', 'G', 'U' ] : List Char).contains b))

/-- Python str.replace(pat, rep) with a nonempty pattern: every
non-overlapping occurrence is replaced, scanning left to right. Fuel
bounds the recursion; each step consumes at least one character of cs,
so fuel = cs.length suffices. -/
def replaceFuel : Nat → List Char → List Char → List Char → List Char
  | 0, _, _, cs => cs
  | _ + 1, _, _, [] => []
  | fuel + 1, pat, rep, c :: rest =>
    if pat.isPrefixOf (c :: rest) && !pat.isEmpty then
      rep ++ replaceFuel fuel pat rep ((c :: rest).drop pat.length)
    else
      c :: replaceFuel fuel pat rep rest

/-- text.replace(pat, rep) for the nonempty patterns of the marker
fixup. -/
def str_replace (s pat rep : String) : String :=
  String.mk (replaceFuel s.data.length pat.data rep.data s.data)

/-- The final step of ElnSequenceTransformCommand.run when reverse is
set (lines 555-557):
text.replace("'5-", "5'-").replace("-'3", "-3'"). -/
def marker_fixup (t : String) : String :=
  str_replace (str_replace t ( "'5-" ) ( "5'-" )) ( "-'3" ) ( "-3'" )

/-- The per-selection body of ElnSequenceTransformCommand.run
(lines 548-557) on a nonempty selection text: optional dna_filter, then
the complement/reverse dispatch, then the marker fixup when reverse is
set. With complement and reverse both false no branch assigns the
output variable text, and the later use of text raises UnboundLocalError
in Python: modelled by none. -/
def transform_text (complement reverse dna_only : Bool) (m : WcMapName) (seq0 : String) : Option String :=
  let seq := if dna_only then dna_filter seq0 else seq0
  let t0 : Option String :=
    if complement then some (if reverse then rcompl seq m else compl seq m)
    else if reverse then some (rseq seq)
    else none
  t0.map (fun t => if reverse then marker_fixup t else t)

/-- The selection loop of ElnSequenceTransformCommand.run (lines
544-566): empty selections are skipped (continue), each remaining
selection text is transformed and written (returned in order); a raise
while processing one selection aborts the whole command (none). -/
def run_transform_outputs (complement reverse dna_only : Bool) (m : WcMapName) : List String → Option (List String)
  | [] => some []
  | s :: rest =>
    if s = "" then run_transform_outputs complement reverse dna_only m rest
    else
      match transform_text complement reverse dna_only m s with
      | none => none
      | some t => (run_transform_outputs complement reverse dna_only m rest).map (fun l => t :: l)

/-- The statistics of one selection text in ElnSequenceStats.run
(lines 593-596): counts = {k: sum(1 for b in seq if b == k) for k in
"ATGC"} (case-sensitive character equality, no upper()), gc =
counts[G] + counts[C], tot = the sum of all four counts, and the
reported ratio gc/tot. Python raises ZeroDivisionError when tot = 0:
modelled by none. -/
def gc_stats (seq : String) : Option ℚ :=
  let count : Char → Nat := fun k => (seq.data.filter (fun b => b == k)).length
  let gc : Nat := count 'G' + count 'C'
  let tot : Nat := count 'A' + count 'T' + count 'G' + count 'C'
  if tot = 0 then none else some ((gc : ℚ) / (tot : ℚ))

/-- The selection loop of ElnSequenceStats.run (lines 584-598): empty
selections are skipped, each remaining selection is optionally
dna_filter-ed and its GC ratio reported; a ZeroDivisionError aborts the
whole command (none). -/
def run_stats (dna_only : Bool) : List String → Option (List ℚ)
  | [] => some []
  | s :: rest =>
    if s = "" then run_stats dna_only rest
    else
      let seq := if dna_only then dna_filter s else s
      match gc_stats seq with
      | none => none
      | some q => (run_stats dna_only rest).map (fun l => q :: l)

/-- Splitter for the IDT modification pattern: scans for the first
slash-delimited token, returning the plain chunk before it, the token
(slashes included), and recursing on the remainder; a lone unmatched
opening slash matches nothing, leaving the whole text a plain chunk.
Fuel bounds the recursion; each match consumes the token, so
fuel = cs.length suffices. -/
def splitModsFuel : Nat → List Char → List (List Char × List Char) × List Char
  | 0, cs => ([], cs)
  | fuel + 1, cs =>
    let chunk := cs.takeWhile (fun c => c != '/')
    match cs.dropWhile (fun c => c != '/') with
    | [] => ([], chunk)
    | _ :: afterOpen =>
      let inner := afterOpen.takeWhile (fun c => c != '/')
      match afterOpen.dropWhile (fun c => c != '/') with
      | [] => ([], cs)
      | _ :: afterClose =>
        let next := splitModsFuel fuel afterClose
        ((chunk, '/' :: (inner ++ [ '/' ])) :: next.1, next.2)

/-- Modelled from the spec: mod_preserving_compl is described in the
spec (modification-preserving complement, with the IDT preset pattern
matching content delimited by slashes) but is absent from the source
files under src/. Per the spec it splits the input into alternating
(sequence-chunk, modification-token) pairs, concatenates
compl(chunk) ++ modification for each pair in original order, and
complements the trailing chunk; modification tokens never participate
in complementation. -/
def mod_preserving_compl (seq : String) (m : WcMapName) : String :=
  let parts := splitModsFuel seq.data.length seq.data
  String.mk ((parts.1.map (fun p => (compl (String.mk p.1) m).data ++ p.2)).flatten ++ (compl (String.mk parts.2) m).data)

/-- Helper: a character below the ASCII bound expands to its single
Char.toUpper image. -/
theorem pyUpperChar_ascii (c : Char) (h : c.toNat < 128) :
    pyUpperChar c = [ Char.toUpper c ] := by
  have h1 : c ≠ Char.ofNat 223 := by
    intro e
    subst e
    exact absurd h (by decide)
  have h2 : c ≠ Char.ofNat 329 := by
    intro e
    subst e
    exact absurd h (by decide)
  simp [pyUpperChar, h1, h2]

/-- Helper: on a list of characters below the ASCII bound, the
uppercase expansion is the character-wise Char.toUpper map. -/
theorem flatten_upper_ascii (l : List Char) (h : ∀ c ∈ l, c.toNat < 128) :
    (l.map pyUpperChar).flatten = l.map Char.toUpper := by
  induction l with
  | nil => rfl
  | cons a t ih =>
    simp only [List.map_cons, List.flatten_cons,
      pyUpperChar_ascii a (h a (List.mem_cons_self a t))]
    rw [ih (fun c hc => h c (List.mem_cons_of_mem a hc))]
    rfl

/-- Helper: on a list of characters each of which expands to itself,
the uppercase expansion is the identity. -/
theorem flatten_upper_id (l : List Char) (h : ∀ c ∈ l, pyUpperChar c = [ c ]) :
    (l.map pyUpperChar).flatten = l := by
  induction l with
  | nil => rfl
  | cons a t ih =>
    simp only [List.map_cons, List.flatten_cons, h a (List.mem_cons_self a t)]
    rw [ih (fun c hc => h c (List.mem_cons_of_mem a hc))]
    rfl

/-- C1. The claim states that rcompl itself swaps the terminus markers:
rcompl applied to the marker-decorated input returns the output with the
markers re-attached the right way round. In the source, rcompl (lines
59-61) only complements and reverses, so the markers come out mangled;
the marker fixup is a separate replace step of
ElnSequenceTransformCommand.run (lines 555-557). Counterexample: rcompl
on the decorated input yields the mangled string, not the claimed
output. -/
theorem rcompl_markers_not_swapped :
    rcompl ( "5'-ATGC-3'" ) WcMapName.dna = ( "'5-GCAT-'3" )
    ∧ rcompl ( "5'-ATGC-3'" ) WcMapName.dna ≠ ( "5'-GCAT-3'" ) := by
  exact ⟨by decide, by decide⟩

/-- C1 (amended). The transform pipeline of
ElnSequenceTransformCommand.run with complement and reverse set, which
runs rcompl and then the marker-fixup replaces, maps the decorated
input to the claimed output with the markers swapped end-for-end. -/
theorem transform_reverse_complement_swaps_markers :
    transform_text true true false WcMapName.dna ( "5'-ATGC-3'" )
      = some ( "5'-GCAT-3'" ) := by
  decide

/-- C2. The claim quantifies over sequences in either upper or lower
case; compl uppercases its input (seq.upper()), so a lower-case input
is not restored: applying rcompl twice to the lower-case string returns
its upper-case form, not the original. -/
theorem rcompl_rcompl_lowercase_ne :
    rcompl (rcompl ( "atgc" ) WcMapName.dna) WcMapName.dna = ( "ATGC" )
    ∧ ( "ATGC" : String) ≠ ( "atgc" ) := by
  exact ⟨by decide, by decide⟩

/-- C2 (amended). For every sequence over the UPPER-case characters
A, C, G, T, applying rcompl twice with the dna map returns the sequence
unchanged. -/
theorem rcompl_involutive_upper (s : String)
    (h : ∀ c ∈ s.data, c ∈ ([ 'A', 'T', 'G', 'C' ] : List Char)) :
    rcompl (rcompl s WcMapName.dna) WcMapName.dna = s := by
  obtain ⟨l⟩ := s
  have h1 : (l.map pyUpperChar).flatten = l := by
    apply flatten_upper_id
    intro c hc
    have hm := h c hc
    fin_cases hm <;> decide
  have e1 : rcompl (String.mk l) WcMapName.dna
      = String.mk ((l.map (complChar WcMapName.dna)).reverse) := by
    show String.mk (((l.map pyUpperChar).flatten.map (complChar WcMapName.dna)).reverse) = _
    rw [h1]
  have h2 : (((l.map (complChar WcMapName.dna)).reverse).map pyUpperChar).flatten
      = (l.map (complChar WcMapName.dna)).reverse := by
    apply flatten_upper_id
    intro c hc
    rw [List.mem_reverse] at hc
    rcases List.mem_map.mp hc with ⟨a, ha, rfl⟩
    have hm := h a ha
    fin_cases hm <;> decide
  have e2 : rcompl (String.mk ((l.map (complChar WcMapName.dna)).reverse)) WcMapName.dna
      = String.mk ((((l.map (complChar WcMapName.dna)).reverse).map
        (complChar WcMapName.dna)).reverse) := by
    show String.mk (((((l.map (complChar WcMapName.dna)).reverse).map
      pyUpperChar).flatten.map (complChar WcMapName.dna)).reverse) = _
    rw [h2]
  rw [e1, e2]
  congr 1
  rw [List.map_reverse, List.reverse_reverse, List.map_map]
  conv_rhs => rw [← List.map_id l]
  apply List.map_congr_left
  intro c hc
  have hm := h c hc
  fin_cases hm <;> decide

/-- C2 witness: the amended involution at the concrete input ATGC. -/
theorem rcompl_involutive_upper_witness :
    rcompl (rcompl ( "ATGC" ) WcMapName.dna) WcMapName.dna = ( "ATGC" ) :=
  rcompl_involutive_upper ( "ATGC" ) (by decide)

/-- C3. The claim states that in strict mode compl fails with an
UnmappedBaseError on a character outside the map. The source compl
(lines 54-56) has no strict parameter and raises nothing: every
character is looked up with .get(b, b), so the unmapped X passes
through and compl returns the string TACX instead of failing. -/
theorem compl_unmapped_returns_result :
    compl ( "ATGX" ) WcMapName.dna = ( "TACX" ) := by
  decide

/-- C3 (amended). compl has no strict mode: a character whose (already
upper-cased) value has no entry in the chosen map passes through
unchanged, and in particular compl on ATGX returns TACX with the X kept
in place. -/
theorem compl_unmapped_passes_through :
    (∀ (m : WcMapName) (c : Char),
      (wc_maps m).reverse.lookup c = none → complChar m c = c)
    ∧ compl ( "ATGX" ) WcMapName.dna = ( "TACX" ) := by
  constructor
  · intro m c hc
    simp [complChar, dictGetD, hc]
  · decide

/-- C3 witness: the pass-through at the concrete unmapped character X
of the dna map. -/
theorem compl_unmapped_passes_through_witness :
    complChar WcMapName.dna ( 'X' ) = ( 'X' ) :=
  compl_unmapped_passes_through.1 WcMapName.dna ( 'X' ) (by decide)

/-- C4. The modification-preserving complement (modelled from the spec,
absent from src/) leaves the IDT modification token untouched and in
place while complementing the surrounding bases. -/
theorem mod_preserving_compl_idt_example :
    mod_preserving_compl ( "AT/5Biosg/GC" ) WcMapName.dna = ( "TA/5Biosg/CG" ) := by
  decide

/-- C5. The claim states that compl preserves length for EVERY string.
compl iterates over seq.upper(), and Python uppercasing expands some
characters to several: on the one-character string holding the sharp s
(code point 223, uppercased to SS), compl returns a two-character
string, so the universal length claim fails. -/
theorem compl_sharp_s_length_ne :
    (compl (String.mk [ Char.ofNat 223 ]) WcMapName.dna).length = 2
    ∧ (String.mk [ Char.ofNat 223 ]).length = 1
    ∧ (compl (String.mk [ Char.ofNat 223 ]) WcMapName.dna).length
      ≠ (String.mk [ Char.ofNat 223 ]).length := by
  exact ⟨by decide, by decide, by decide⟩

/-- C5 (amended). What compl preserves is the length of the uppercased
input: len(compl(s)) = len(s.upper()) for every string and every
existing map; and on strings of ASCII characters (code points below
128, where uppercasing is one character to one character, covering
every sequence alphabet of the plugin) len(compl(s)) = len(s). -/
theorem compl_length_eq_upper_length :
    (∀ (s : String) (m : WcMapName), (compl s m).length = (str_upper s).length)
    ∧ (∀ (s : String) (m : WcMapName), (∀ c ∈ s.data, c.toNat < 128) →
      (compl s m).length = s.length) := by
  constructor
  · intro s m
    show ((str_upper s).data.map (complChar m)).length = (str_upper s).data.length
    simp
  · intro s m h
    show ((s.data.map pyUpperChar).flatten.map (complChar m)).length = s.data.length
    rw [flatten_upper_ascii s.data h]
    simp

/-- C5 witness: both parts of the amended length claim at the concrete
ASCII input ATGC, the hypothesis discharged by evaluation. -/
theorem compl_length_eq_upper_length_witness :
    (compl ( "ATGC" ) WcMapName.dna).length = (str_upper ( "ATGC" )).length
    ∧ (compl ( "ATGC" ) WcMapName.dna).length = ( "ATGC" : String).length :=
  ⟨compl_length_eq_upper_length.1 ( "ATGC" ) WcMapName.dna,
    compl_length_eq_upper_length.2 ( "ATGC" ) WcMapName.dna (by decide)⟩

/-- C6. The claim states that rcompl equals compl of the reversed
sequence for EVERY string. Python uppercasing breaks this on characters
with multi-character expansions: the one-character string holding the
small n preceded by a modifier apostrophe (code point 329) uppercases
to a two-character string, which rcompl reverses but compl-of-rseq does
not, so the two sides differ. -/
theorem rcompl_apostrophe_n_ne_compl_rseq :
    rcompl (String.mk [ Char.ofNat 329 ]) WcMapName.dna
      ≠ compl (rseq (String.mk [ Char.ofNat 329 ])) WcMapName.dna := by
  decide

/-- C6 (amended). On strings of ASCII characters (code points below
128, where uppercasing is one character to one character, covering
every sequence alphabet of the plugin), the reverse complement equals
the complement of the character-order-reversed sequence for every
existing map: reversing and complementing commute. -/
theorem rcompl_eq_compl_rseq_ascii (s : String) (m : WcMapName)
    (h : ∀ c ∈ s.data, c.toNat < 128) :
    rcompl s m = compl (rseq s) m := by
  obtain ⟨l⟩ := s
  have h1 : (l.map pyUpperChar).flatten = l.map Char.toUpper :=
    flatten_upper_ascii l h
  have h2 : (l.reverse.map pyUpperChar).flatten = l.reverse.map Char.toUpper :=
    flatten_upper_ascii l.reverse (fun c hc => h c (List.mem_reverse.mp hc))
  show String.mk (((l.map pyUpperChar).flatten.map (complChar m)).reverse)
      = String.mk ((l.reverse.map pyUpperChar).flatten.map (complChar m))
  rw [h1, h2, List.map_map, List.map_map, List.map_reverse]

/-- C6 witness: the amended commutation at the concrete ASCII input
with terminus markers, the hypothesis discharged by evaluation. -/
theorem rcompl_eq_compl_rseq_ascii_witness :
    rcompl ( "5'-ATGC-3'" ) WcMapName.dna
      = compl (rseq ( "5'-ATGC-3'" )) WcMapName.dna :=
  rcompl_eq_compl_rseq_ascii ( "5'-ATGC-3'" ) WcMapName.dna (by decide)

/-- C7. The sequence-statistics computation counts A, T, G, C
occurrences and reports GC content (count_G + count_C) divided by the
total A/T/G/C count: for the selection ATGC it reports 2/4 = 0.50, both
for the per-selection computation and for the command run on that one
selection. -/
theorem gc_stats_ATGC_half :
    gc_stats ( "ATGC" ) = some (1/2)
    ∧ run_stats false [ ( "ATGC" ) ] = some [ (1/2 : ℚ) ] := by
  have h : gc_stats ( "ATGC" ) = some (1/2) := by
    show (if (4 : Nat) = 0 then none else some (((2 : Nat) : ℚ) / ((4 : Nat) : ℚ))) = some (1/2)
    norm_num
  refine ⟨h, ?_⟩
  show (match gc_stats ( "ATGC" ) with
    | none => none
    | some q => (run_stats false []).map (fun l => q :: l)) = some [ (1/2 : ℚ) ]
  rw [h]
  rfl

/-- C8. A selection with no A, T, G or C characters makes the total
count zero, and gc/tot raises ZeroDivisionError (modelled none): the
statistics fail rather than reporting a value, with no explicit guard
in the source (lines 593-596). -/
theorem gc_stats_no_bases_none (s : String) (_h1 : s ≠ ( "" ))
    (h2 : ∀ c ∈ s.data, c ∉ ([ 'A', 'T', 'G', 'C' ] : List Char)) :
    gc_stats s = none := by
  have hf : ∀ k ∈ ([ 'A', 'T', 'G', 'C' ] : List Char),
      s.data.filter (fun b => b == k) = [] := by
    intro k hk
    rw [List.filter_eq_nil_iff]
    intro c hc
    simp only [beq_iff_eq]
    exact fun hck => (h2 c hc) (hck ▸ hk)
  simp only [gc_stats]
  rw [hf ( 'A' ) (by decide), hf ( 'T' ) (by decide), hf ( 'G' ) (by decide),
    hf ( 'C' ) (by decide)]
  simp

/-- C8 witness: the statistics fail on the concrete base-free nonempty
selection xyz. -/
theorem gc_stats_no_bases_none_witness : gc_stats ( "xyz" ) = none :=
  gc_stats_no_bases_none ( "xyz" ) (by decide) (by decide)

/-- C9. Both command loops skip empty selections without error: the
outputs of a run equal the outputs of the same run on the list with the
empty selections dropped, for the transform command and the statistics
command alike. -/
theorem runs_skip_empty_selections (complement reverse dna_only : Bool)
    (m : WcMapName) (dna_only2 : Bool) (sels : List String) :
    run_transform_outputs complement reverse dna_only m sels
      = run_transform_outputs complement reverse dna_only m (sels.filter (fun s => s != ( "" )))
    ∧ run_stats dna_only2 sels
      = run_stats dna_only2 (sels.filter (fun s => s != ( "" ))) := by
  induction sels with
  | nil => exact ⟨rfl, rfl⟩
  | cons s rest ih =>
    by_cases hs : s = ( "" )
    · subst hs
      simp only [run_transform_outputs, run_stats, List.filter_cons, if_pos rfl]
      simpa using ih
    · have hb : (s != ( "" )) = true := bne_iff_ne.mpr hs
      refine ⟨?_, ?_⟩
      · simp only [run_transform_outputs, List.filter_cons, hb, if_neg hs, if_true]
        rw [ih.1]
      · simp only [run_stats, List.filter_cons, hb, if_neg hs, if_true]
        rw [ih.2]

/-- C10. With complement and reverse both false, no branch of
ElnSequenceTransformCommand.run assigns the output variable text, so
the first nonempty selection makes the command fail (UnboundLocalError,
modelled none); with complement true (the default) the failure branch
is unreachable and the run always produces outputs. -/
theorem transform_unassigned_text_failure (dna_only : Bool) (m : WcMapName) :
    (∀ sels : List String, (∃ s ∈ sels, s ≠ ( "" )) →
      run_transform_outputs false false dna_only m sels = none)
    ∧ (∀ (reverse : Bool) (sels : List String),
      (run_transform_outputs true reverse dna_only m sels).isSome = true) := by
  constructor
  · intro sels
    induction sels with
    | nil =>
      intro h
      rcases h with ⟨s, hs, _⟩
      exact absurd hs (List.not_mem_nil s)
    | cons s rest ih =>
      intro h
      by_cases hs : s = ( "" )
      · subst hs
        simp only [run_transform_outputs, if_pos rfl]
        apply ih
        rcases h with ⟨t, ht, hne⟩
        rcases List.mem_cons.mp ht with rfl | htr
        · exact absurd rfl hne
        · exact ⟨t, htr, hne⟩
      · simp only [run_transform_outputs, if_neg hs]
        have hnone : transform_text false false dna_only m s = none := rfl
        rw [hnone]
  · intro reverse sels
    induction sels with
    | nil => rfl
    | cons s rest ih =>
      by_cases hs : s = ( "" )
      · subst hs
        simp only [run_transform_outputs, if_pos rfl]
        exact ih
      · simp only [run_transform_outputs, if_neg hs]
        have hsome : ∃ t, transform_text true reverse dna_only m s = some t := ⟨_, rfl⟩
        rcases hsome with ⟨t, ht⟩
        rw [ht]
        simpa using ih

/-- C10 witness: the failure and the unreachability at the concrete
one-selection input A with the dna map. -/
theorem transform_unassigned_text_failure_witness :
    run_transform_outputs false false false WcMapName.dna [ ( "A" ) ] = none
    ∧ (run_transform_outputs true false false WcMapName.dna [ ( "A" ) ]).isSome = true :=
  ⟨(transform_unassigned_text_failure false WcMapName.dna).1 [ ( "A" ) ] ⟨( "A" ), by decide⟩,
    (transform_unassigned_text_failure false WcMapName.dna).2 false [ ( "A" ) ]⟩

end ElnUtils
